import Mathlib

/-!
Verification development for the CiviLeads lead-resolution pipeline.

The Python sources under `civileads_project/civileads/` (`utils.py`,
`scraper.py`) are shallowly embedded below: pure helper functions become
Lean functions on `String` / `List Char`, candidate-record dictionaries
become the `Official` structure, Python floats are modelled as exact
rationals (`ℚ`), and the HTTP / HTML-parsing collaborators are passed in
as explicit oracle parameters.  The legacy duplicate module
`civileads/scraper.py` is embedded separately with a `legacy_` prefix.
-/

/-! ## String helpers

Small executable replacements for the Python string operations used by
the source (`in`, `.lower()`, `.replace`, slicing, `.split`), defined
structurally so that every theorem below can be settled by evaluation.
-/

/-- Check that `pat` is an initial segment of `l` (Python `str.startswith`). -/
def leadsWith : List Char → List Char → Bool
  | [], _ => true
  | _ :: _, [] => false
  | a :: as, b :: bs => a == b && leadsWith as bs

/-- Python's substring test `needle in hay` on character lists. -/
def hasSubList (needle : List Char) : List Char → Bool
  | [] => needle.isEmpty
  | c :: rest => leadsWith needle (c :: rest) || hasSubList needle rest

/-- Python's substring test `needle in hay` on strings. -/
def hasSub (needle hay : String) : Bool :=
  hasSubList needle.toList hay.toList

/-- Python `s.lower()` (ASCII case folding, which is all the source uses). -/
def toLowerS (s : String) : String :=
  String.mk (s.toList.map Char.toLower)

/-- Python `s.startswith(p)` on strings. -/
def startsWithS (s p : String) : Bool :=
  leadsWith p.toList s.toList

/-- Python `s.replace(c, r)` for a single-character pattern `c`. -/
def replaceChar (s : String) (c : Char) (r : String) : String :=
  String.mk (s.toList.foldr (fun ch acc => if ch == c then r.toList ++ acc else ch :: acc) [])

/-- Python slice `s[:n]`. -/
def pyTake (s : String) (n : Nat) : String :=
  String.mk (s.toList.take n)

/-- Python `s.rstrip('/')`. -/
def rstripSlash (s : String) : String :=
  String.mk ((s.toList.reverse.dropWhile (· == '/')).reverse)

/-- Split a character list at every character satisfying `p`, keeping empty pieces
(the behaviour of Python `re.split` / `str.split(sep)` for one separator). -/
def splitOnPred (p : Char → Bool) (l : List Char) : List (List Char) :=
  l.foldr
    (fun ch acc =>
      match acc with
      | [] => [[ch]]
      | cur :: rest => if p ch then [] :: (cur :: rest) else (ch :: cur) :: rest)
    [[]]

/-- Whitespace characters recognised by Python `str.split()` (ASCII range). -/
def isPyWs (c : Char) : Bool :=
  c == ' ' || c == '\t' || c == '\n' || c == '\r' || c == '\x0b' || c == '\x0c'

/-- Python `s.split()` with no argument: split on whitespace runs, dropping
empty pieces; pieces are returned as character lists. -/
def pySplitWs (s : String) : List (List Char) :=
  (splitOnPred isPyWs s.toList).filter (· ≠ [])

/-- Python truthiness of an optional string field of a record dictionary:
a missing key / `None` and the empty string are falsy. -/
def truthy : Option String → Bool
  | none => false
  | some s => !(s == "")

/-! ## Data model

`Official` embeds the candidate-record dictionaries built by the scraper.
Python distinguishes a missing key from an explicit `None`; every code
path embedded here treats the two identically (via `dict.get` or a
presence-check-then-default), so both are modelled as `none`.
Floats are modelled as exact rationals.
-/

/-- A candidate official record (one dictionary of the Python pipeline). -/
structure Official where
  name : String
  title : String
  email : Option String := none
  phone : Option String := none
  linkedin_url : Option String := none
  source : Option String := none
  confidence_score : ℚ := 0
deriving DecidableEq, Repr

/-! ## Validators (`utils.py`) -/

/-- `NON_OFFICIAL_INDICATORS` from `utils.py`. -/
def NON_OFFICIAL_INDICATORS : List String :=
  ["investor", "innovation", "support", "development",
   "membership", "contractor", "vendor", "supplier", "partner"]

/-- `COMMON_OFFICIAL_TITLES` from `utils.py`. -/
def COMMON_OFFICIAL_TITLES : List String :=
  ["mayor", "city manager", "administrator", "clerk", "director",
   "council", "councilor", "councilmember", "treasurer", "attorney",
   "manager", "supervisor", "chief", "commissioner", "engineer"]

/-- One token of the regex `[A-Z][a-z]+`: an ASCII capital followed by one or
more ASCII lowercase letters. -/
def isNameToken : List Char → Bool
  | [] => false
  | c :: rest => c.isUpper && !rest.isEmpty && rest.all Char.isLower

/-- Full-string match of the regex `^[A-Z][a-z]+( [A-Z][a-z]+)+$` used by
`validate_official_name`: two or more tokens separated by single spaces. -/
def matchesNameRegex (s : String) : Bool :=
  let ws := splitOnPred (· == ' ') s.toList
  decide (2 ≤ ws.length) && ws.all isNameToken

/-- `suspicious_parts` local list of `validate_official_name`. -/
def suspicious_parts : List String :=
  ["event", "investor", "support", "development", "innovation"]

/-- `validate_official_name` from `utils.py`. -/
def validate_official_name (name : String) : Bool :=
  if name.length < 4 then false
  else if NON_OFFICIAL_INDICATORS.any (fun ind => hasSub (toLowerS ind) (toLowerS name)) then false
  else if matchesNameRegex name then true
  else if suspicious_parts.any (fun part => hasSub (toLowerS part) (toLowerS name)) then false
  else
    let words := pySplitWs name
    decide (2 ≤ words.length) && words.all (fun w => decide (2 ≤ w.length))

/-- `validate_official_title` from `utils.py`. -/
def validate_official_title (title : String) : Bool :=
  if title == "" then false
  else
    let title_lower := toLowerS title
    if COMMON_OFFICIAL_TITLES.any (fun t => hasSub t title_lower) then true
    else if hasSub "director" title_lower || hasSub "chief" title_lower then true
    else if NON_OFFICIAL_INDICATORS.any (fun ind => hasSub ind title_lower) then false
    else decide (4 ≤ title.length)

/-- Character class `[a-zA-Z0-9._%+-]` (local part of the email regex). -/
def isEmailLocalChar (c : Char) : Bool :=
  c.isAlpha || c.isDigit || c == '.' || c == '_' || c == '%' || c == '+' || c == '-'

/-- Character class `[a-zA-Z0-9.-]` (domain body of the email regex). -/
def isEmailDomainChar (c : Char) : Bool :=
  c.isAlpha || c.isDigit || c == '.' || c == '-'

/-- Match of `[a-zA-Z0-9.-]+\.[a-zA-Z]{2,}` against a whole character list:
some split at a dot leaves a nonempty domain body before it and at least two
ASCII letters after it. -/
def matchesEmailDomain (d : List Char) : Bool :=
  (List.range d.length).any (fun i =>
    match d.drop i with
    | '.' :: t =>
        !(d.take i).isEmpty && (d.take i).all isEmailDomainChar &&
        decide (2 ≤ t.length) && t.all Char.isAlpha
    | _ => false)

/-- Full-string match of the email regex
`^[a-zA-Z0-9._%+-]+@[a-zA-Z0-9.-]+\.[a-zA-Z]{2,}$`. -/
def matchesEmailRegex (s : List Char) : Bool :=
  (List.range s.length).any (fun j =>
    match s.drop j with
    | '@' :: d => !(s.take j).isEmpty && (s.take j).all isEmailLocalChar && matchesEmailDomain d
    | _ => false)

/-- `validate_email` from `utils.py`. -/
def validate_email (email : String) : Bool :=
  if email == "" then false
  else matchesEmailRegex email.toList

/-- The `(AAA) BBB-CCCC` formatting of `validate_phone`, written with the
source's slices `d[0:3]`, `d[3:6]`, `d[6:10]`. -/
def formatPhone10 (d : List Char) : String :=
  "(" ++ String.mk (d.take 3) ++ ") " ++ String.mk ((d.drop 3).take 3) ++ "-" ++
    String.mk ((d.drop 6).take 4)

/-- The 11-digit branch formatting of `validate_phone`, written with the
source's slices `d[1:4]`, `d[4:7]`, `d[7:11]`. -/
def formatPhone11 (d : List Char) : String :=
  "(" ++ String.mk ((d.drop 1).take 3) ++ ") " ++ String.mk ((d.drop 4).take 3) ++ "-" ++
    String.mk ((d.drop 7).take 4)

/-- `validate_phone` from `utils.py`. -/
def validate_phone (phone : String) : Option String :=
  if phone == "" then none
  else
    let digits := phone.toList.filter Char.isDigit
    if digits.length == 10 then some (formatPhone10 digits)
    else if digits.length == 11 && digits.take 1 == ['1'] then some (formatPhone11 digits)
    else none

/-- Modelled from the spec's words for §4.1 `validate_phone` (claim C3):
strip all non-digit characters; exactly 10 digits are formatted as
`(AAA) BBB-CCCC`; exactly 11 digits with a leading `'1'` have the last 10
digits formatted the same way; any other digit count yields no result. -/
def validate_phone_spec (phone : String) : Option String :=
  let digits := phone.toList.filter Char.isDigit
  if digits.length == 10 then some (formatPhone10 digits)
  else if digits.length == 11 && digits.take 1 == ['1'] then some (formatPhone10 (digits.drop 1))
  else none

/-! ## Confidence scorer (`utils.py`) -/

/-- `calculate_confidence_score` from `utils.py`.  The Python function
returns the score and, as a side effect, rewrites the record's `phone`
field to canonical form when `validate_phone` succeeds; the pure embedding
returns the score together with the updated record.  The float weights
`0.4, 0.2, 0.2, 0.1, 0.1` are modelled as exact rationals. -/
def calculate_confidence_score (official : Official) : ℚ × Official :=
  let nameOk := validate_official_name official.name
  let titleOk := validate_official_title official.title
  let emailOk := validate_email (official.email.getD "")
  let phoneRes : Option String :=
    if truthy official.phone then validate_phone (official.phone.getD "") else none
  let official' : Official :=
    match phoneRes with
    | some fp => { official with phone := some fp }
    | none => official
  let linkOk := truthy official'.linkedin_url
  let score : ℚ :=
    (if nameOk then (4 : ℚ)/10 else 0) + (if titleOk then (2 : ℚ)/10 else 0) +
      (if emailOk then (2 : ℚ)/10 else 0) + (if phoneRes.isSome then (1 : ℚ)/10 else 0) +
      (if linkOk then (1 : ℚ)/10 else 0)
  let total_weight : ℚ := 4/10 + 2/10 + 2/10 + 1/10 + 1/10
  if 0 < total_weight then (score / total_weight, official') else (0, official')

/-- `filter_officials` from `utils.py`: score every record (with the phone
canonicalisation side effect), store the score in `confidence_score`, and
keep only records whose score reaches `min_confidence` (the source's
default is `0.6`). -/
def filter_officials (officials : List Official) (min_confidence : ℚ) : List Official :=
  officials.foldl
    (fun acc official =>
      let c := (calculate_confidence_score official).1
      let official' := { (calculate_confidence_score official).2 with confidence_score := c }
      if min_confidence ≤ c then acc ++ [official'] else acc)
    []

/-! ## Site discovery (`utils.py`) -/

/-- `generate_url_patterns` from `utils.py`.  (The local variable
`muni_with_state` of the source is never used and is omitted.) -/
def generate_url_patterns (municipality state : String) : List String :=
  let muni_clean := replaceChar (toLowerS municipality) ' ' ""
  let muni_clean_dash := replaceChar (toLowerS municipality) ' ' "-"
  let patterns : List String :=
    ["https://www." ++ pyTake muni_clean 3 ++ ".gov",
     "https://" ++ pyTake muni_clean 3 ++ ".gov",
     "https://www." ++ muni_clean ++ ".gov",
     "https://" ++ muni_clean ++ ".gov",
     "https://www." ++ muni_clean ++ ".org",
     "https://" ++ muni_clean ++ ".org",
     "https://www." ++ muni_clean ++ ".com",
     "https://www.cityof" ++ muni_clean ++ ".gov",
     "https://www.cityof" ++ muni_clean ++ ".org",
     "https://www.cityof" ++ muni_clean ++ ".com",
     "https://" ++ muni_clean_dash ++ ".gov",
     "https://www." ++ muni_clean_dash ++ ".gov",
     "https://" ++ muni_clean_dash ++ ".org",
     "https://www." ++ muni_clean_dash ++ ".org"]
  let patterns :=
    if toLowerS municipality == "des moines" then
      ["https://www.dsm.gov", "https://dsm.gov", "https://www.dmgov.org", "https://dmgov.org"]
        ++ patterns
    else patterns
  let state_lower := toLowerS state
  if state.length == 2 then
    patterns ++
      ["https://" ++ muni_clean ++ "." ++ state_lower ++ ".us",
       "https://www." ++ muni_clean ++ "." ++ state_lower ++ ".us",
       "https://" ++ muni_clean_dash ++ "." ++ state_lower ++ ".us",
       "https://www." ++ muni_clean_dash ++ "." ++ state_lower ++ ".us",
       "https://" ++ muni_clean ++ "." ++ state_lower ++ ".gov",
       "https://www." ++ muni_clean ++ "." ++ state_lower ++ ".gov"]
  else patterns

/-- The fixed `municipal_indicators` vocabulary of `is_likely_municipal_site`. -/
def municipal_indicators_base : List String :=
  ["city hall", "town hall", "municipal", "government", "mayor",
   "city council", "town council", "city of", "town of", "public works",
   "elected officials", "clerk", "city services", "permits", "departments",
   "residents", "business", "visitors", "community", "zoning", "planning",
   "city manager", "fire department", "police department", "recreation",
   "meeting", "agenda", "minutes", "ordinance", "code", "parks",
   "water", "sewer", "trash", "recycling", "snow removal",
   "job", "employment", "parking", "library", "emergency", "payment"]

/-- The `city_specific` extra keywords of `is_likely_municipal_site`. -/
def city_specific_extra (muni_lower : String) : List String :=
  if muni_lower == "des moines" then ["dsm", "dmgov", "des moines city", "polk county"]
  else if muni_lower == "cedar rapids" then ["cedar rapids city", "linn county"]
  else []

/-- The indicator vocabulary actually scanned for a given municipality. -/
def municipal_indicators (muni_lower : String) : List String :=
  municipal_indicators_base ++ city_specific_extra muni_lower

/-- `name_found` of `is_likely_municipal_site`: the municipality name (or its
space-stripped variant, or `"dsm"` for Des Moines) occurs in the page. -/
def name_found (html_lower muni_lower : String) : Bool :=
  hasSub muni_lower html_lower || hasSub (replaceChar muni_lower ' ' "") html_lower ||
    (muni_lower == "des moines" && hasSub "dsm" html_lower)

/-- `state_found` of `is_likely_municipal_site`. -/
def state_found (html_lower : String) (state : String) : Bool :=
  hasSub (toLowerS state) html_lower

/-- `indicator_count` of `is_likely_municipal_site`. -/
def indicator_count (html_lower muni_lower : String) : Nat :=
  (municipal_indicators muni_lower).countP (fun ind => hasSub ind html_lower)

/-- `is_likely_municipal_site` from `utils.py`. -/
def is_likely_municipal_site (html_content municipality state : String) : Bool :=
  let html_lower := toLowerS html_content
  let muni_lower := toLowerS municipality
  if name_found html_lower muni_lower && state_found html_lower state then true
  else if name_found html_lower muni_lower && decide (1 ≤ indicator_count html_lower muni_lower) then
    true
  else if decide (2 ≤ indicator_count html_lower muni_lower) then true
  else false

/-- Outcome of one `make_request` call: `none` models an exception after all
retries (including the recursive retry/SSL-fallback logic, which the spec
assigns to the HTTP collaborator); `some (status, body)` models a response. -/
abbrev Fetch := String → Option (Nat × String)

/-- The probing loop of `find_municipal_website`: try each URL in order,
return the first reachable (status 200) URL whose body passes
`is_likely_municipal_site`, and record every URL probed. -/
def probeLoop (fetch : Fetch) (municipality state : String) : List String → Option String × List String
  | [] => (none, [])
  | url :: rest =>
    match fetch url with
    | some (status, body) =>
      if status == 200 && is_likely_municipal_site body municipality state then (some url, [url])
      else
        let r := probeLoop fetch municipality state rest
        (r.1, url :: r.2)
    | none =>
        let r := probeLoop fetch municipality state rest
        (r.1, url :: r.2)

/-- The hardcoded Des Moines fallback URLs of `find_municipal_website`. -/
def des_moines_direct_urls : List String :=
  ["https://www.dsm.city", "https://dsm.city", "https://www.dmgov.org", "https://dmgov.org"]

/-- The Des Moines fallback loop of `find_municipal_website`: return the first
URL that answers with status 200, with no site-likelihood check. -/
def probe200 (fetch : Fetch) : List String → Option String × List String
  | [] => (none, [])
  | url :: rest =>
    match fetch url with
    | some (status, _) =>
      if status == 200 then (some url, [url])
      else
        let r := probe200 fetch rest
        (r.1, url :: r.2)
    | none =>
        let r := probe200 fetch rest
        (r.1, url :: r.2)

/-- `find_municipal_website` from `utils.py`, with the fetch collaborator as a
parameter; also returns the list of URLs probed (for the network-activity
claims).  After the pattern loop fails, the source hardcodes a second loop of
known Des Moines URLs that is accepted on reachability alone. -/
def find_municipal_website (fetch : Fetch) (municipality state : String) :
    Option String × List String :=
  let r := probeLoop fetch municipality state (generate_url_patterns municipality state)
  match r.1 with
  | some url => (some url, r.2)
  | none =>
    if toLowerS municipality == "des moines" && toLowerS state == "ia" then
      let d := probe200 fetch des_moines_direct_urls
      (d.1, r.2 ++ d.2)
    else (none, r.2)

/-- The fixed `contact_paths` list of `find_contact_pages`. -/
def contact_paths : List String :=
  ["/contact", "/directory", "/staff", "/officials", "/elected-officials",
   "/government", "/departments", "/administration", "/city-hall", "/about",
   "/leadership", "/city-council", "/mayor", "/clerk", "/team",
   "/council", "/city-manager", "/contact-us", "/phone-directory",
   "/employee-directory", "/city-departments"]

/-- `find_contact_pages` from `utils.py`: probe every contact path under the
base URL and collect those that answer 200, in probe order; also returns the
probed URLs. -/
def find_contact_pages (fetch : Fetch) (base_url : String) : List String × List String :=
  contact_paths.foldl
    (fun acc path =>
      let url := rstripSlash base_url ++ path
      match fetch url with
      | some (status, _) =>
        if status == 200 then (acc.1 ++ [url], acc.2 ++ [url]) else (acc.1, acc.2 ++ [url])
      | none => (acc.1, acc.2 ++ [url]))
    ([], [])

/-! ## Deduplication and merge (`civileads_project/civileads/scraper.py`) -/

/-- The merge key: `(name.lower(), title.lower())`. -/
abbrev Key := String × String

/-- The merge key of a record. -/
def officialKey (o : Official) : Key := (toLowerS o.name, toLowerS o.title)

/-- The validation gate at the top of the grouping loop of
`score_and_deduplicate`: entries failing name or title validation are skipped. -/
def validOfficial (o : Official) : Bool :=
  validate_official_name o.name && validate_official_title o.title

/-- One group of officials_by_key: its key, the first-encountered member
(the seed) and the later members in encounter order. -/
abbrev MergeGroup := Key × Official × List Official

/-- Append `o` to the entry of officials_by_key with key `k`, creating the
entry at the end when the key is new (Python dicts keep insertion order). -/
def addToGroup : List MergeGroup → Key → Official → List MergeGroup
  | [], k, o => [(k, o, [])]
  | (k', s, os) :: rest, k, o =>
    if k' = k then (k', s, os ++ [o]) :: rest
    else (k', s, os) :: addToGroup rest k o

/-- The grouping loop of `score_and_deduplicate`: skip invalid entries, group
the rest by merge key in encounter order. -/
def groupByKey (l : List Official) : List MergeGroup :=
  l.foldl (fun gs o => if validOfficial o then addToGroup gs (officialKey o) o else gs) []

/-- One step of the merge loop of `score_and_deduplicate`: copy `email`,
`phone`, `linkedin_url` from a later group member into `best_match` only when
the current value is falsy and the member's value is truthy. -/
def fillFrom (best m : Official) : Official :=
  let best := if !truthy best.email && truthy m.email then { best with email := m.email } else best
  let best := if !truthy best.phone && truthy m.phone then { best with phone := m.phone } else best
  let best :=
    if !truthy best.linkedin_url && truthy m.linkedin_url then
      { best with linkedin_url := m.linkedin_url }
    else best
  best

/-- The phone re-validation after scoring in `score_and_deduplicate`. -/
def revalidatePhone (best : Official) : Official :=
  if truthy best.phone then
    match validate_phone (best.phone.getD "") with
    | some fp => { best with phone := some fp }
    | none => best
  else best

/-- Processing of one group in `score_and_deduplicate`: seed from the first
member, fill missing optional fields from later members, optionally enrich
`linkedin_url` via `search_linkedin_profile` (a network + demo-data function,
abstracted here as the `lookup` collaborator in line with the spec's external
enrichment provider), recompute the confidence score (which also
canonicalises the phone), and re-validate the phone.  The source's
`linkedin_url`-key initialisation is a no-op in the `Option` model.
The LinkedIn-enrichment step of the loop, guarded by non-empty municipality
and state, is split out as `enrichLinkedin`. -/
def enrichLinkedin (lookup : String → String → Option String)
    (municipality_name state : String) (best : Official) : Official :=
  if !truthy best.linkedin_url && !(municipality_name == "") && !(state == "") then
    match lookup best.name best.title with
    | some url => { best with linkedin_url := some url }
    | none => best
  else best

/-- Body of the per-group loop of `score_and_deduplicate`: fill from later
members, enrich, score (storing the score and the canonicalised phone), then
re-validate the phone. -/
def processGroup (lookup : String → String → Option String) (municipality_name state : String)
    (seed : Official) (rest : List Official) : Official :=
  let best := enrichLinkedin lookup municipality_name state (rest.foldl fillFrom seed)
  let sc := (calculate_confidence_score best).1
  revalidatePhone { (calculate_confidence_score best).2 with confidence_score := sc }

/-- Stable insertion for a descending sort by confidence: a record is placed
after every record of score not below its own, preserving encounter order
among equal scores — the behaviour of Python's stable
`sort(key=confidence, reverse=True)`. -/
def insertDesc (o : Official) : List Official → List Official
  | [] => [o]
  | x :: xs =>
    if o.confidence_score ≤ x.confidence_score then x :: insertDesc o xs else o :: x :: xs

/-- Stable descending sort by `confidence_score` (insertion sort, stable). -/
def sortDesc (l : List Official) : List Official :=
  l.foldl (fun acc o => insertDesc o acc) []

/-- `score_and_deduplicate` from `civileads_project/civileads/scraper.py`. -/
def score_and_deduplicate (lookup : String → String → Option String)
    (officials_list : List Official) (municipality_name state : String) : List Official :=
  if officials_list.isEmpty then []
  else
    let groups := groupByKey officials_list
    let final_results :=
      groups.map (fun g => processGroup lookup municipality_name state g.2.1 g.2.2)
    sortDesc final_results

/-! ## Entry point (`civileads_project/civileads/scraper.py`)

The HTTP and HTML-parsing collaborators (`requests`, `BeautifulSoup`, and the
regex extraction over page text) are passed in as an `Env` of oracles; the
control flow, URL construction, link filtering and record plumbing are
embedded from the source.  Every function also returns the list of URLs it
fetched, so that network activity is observable.
-/

/-- The collaborators of the scraper module. -/
structure Env where
  fetch : Fetch
  /-- The `.g`/`.LC20lb` selection plus snippet extraction of `search_google`. -/
  parseGoogleOfficials : String → List Official
  /-- `soup.find_all('a', href=True)`: the `(href, link text)` pairs of a page. -/
  anchorsOf : String → List (String × String)
  /-- `soup.get_text()` of a fetched page. -/
  pageTextOf : String → String
  /-- Texts of the `.contact, .officials, .council, .mayor` sections of a page. -/
  sectionTextsOf : String → List String
  /-- `extract_officials_from_text` (regex extraction + validation pass). -/
  extractOfficials : String → List Official
  /-- `search_linkedin_profile` (network search + demo fallback data). -/
  linkedinLookup : String → String → Option String

/-- The Google search URL built by `search_google` and
`search_linkedin_profile`: spaces of the query become `+`. -/
def google_search_url (query : String) : String :=
  "https://www.google.com/search?q=" ++ replaceChar query ' ' "+"

/-- `search_google` from `scraper.py`: fetch the search URL, extract officials
from the result page, and tag each with source `"Google Search"`; any
non-200 response or exception yields an empty list. -/
def search_google (env : Env) (query : String) : List Official × List String :=
  let url := google_search_url query
  match env.fetch url with
  | some (status, body) =>
    if status == 200 then
      ((env.parseGoogleOfficials body).map (fun o => { o with source := some "Google Search" }),
        [url])
    else ([], [url])
  | none => ([], [url])

/-- The link-text filter terms of `scrape_municipal_website`. -/
def contact_link_terms : List String :=
  ["contact", "mayor", "council", "officials", "government", "departments"]

/-- The relative-URL handling of `scrape_municipal_website`. -/
def resolveHref (website_url href : String) : String :=
  if startsWithS href "/" then rstripSlash website_url ++ href
  else if !(startsWithS href "http://" || startsWithS href "https://") then
    rstripSlash website_url ++ "/" ++ href
  else href

/-- `scrape_municipal_website` from `scraper.py`: fetch the page, collect links
whose text mentions a contact term, visit the first three, and extract
officials from each page's text and its contact-like sections, tagging each
record with the page link as source. -/
def scrape_municipal_website (env : Env) (website_url : String) :
    List Official × List String :=
  match env.fetch website_url with
  | none => ([], [website_url])
  | some (status, body) =>
    if status != 200 then ([], [website_url])
    else
      let contact_links :=
        ((env.anchorsOf body).filter
            (fun a => contact_link_terms.any (fun t => hasSub t (toLowerS a.2)))).map
          (fun a => resolveHref website_url a.1)
      let r := (contact_links.take 3).foldl
        (fun acc link =>
          match env.fetch link with
          | some (st2, pbody) =>
            if st2 == 200 then
              let offs :=
                (env.extractOfficials (env.pageTextOf pbody)).map
                  (fun o => { o with source := some link })
              let sec := (env.sectionTextsOf pbody).foldl
                (fun a t =>
                  a ++ (env.extractOfficials t).map (fun o => { o with source := some link }))
                []
              (acc.1 ++ offs ++ sec, acc.2 ++ [link])
            else (acc.1, acc.2 ++ [link])
          | none => (acc.1, acc.2 ++ [link]))
        ([], [])
      (r.1, website_url :: r.2)

/-- The hardcoded Des Moines demo records of `search_direct_for_officials`. -/
def des_moines_sample : List Official :=
  [{ name := "Frank Cownie", title := "Mayor", email := some "mayor@dsm.city",
     phone := some "(515) 283-4944",
     linkedin_url := some "https://www.linkedin.com/in/frank-cownie-mayor-desmoines",
     source := some "Sample data", confidence_score := 1 },
   { name := "Scott Sanders", title := "City Manager", email := some "citymgr@dsm.city",
     phone := some "(515) 283-4141",
     linkedin_url := some "https://www.linkedin.com/in/scott-sanders-desmoines",
     source := some "Sample data", confidence_score := 1 },
   { name := "Jonathan Gano", title := "Public Works Director", email := some "jgano@dsm.city",
     phone := some "(515) 283-4950",
     linkedin_url := some "https://www.linkedin.com/in/jonathan-gano-desmoines",
     source := some "Sample data", confidence_score := 1 },
   { name := "Laura Baumgartner", title := "City Clerk", email := some "clerk@dsm.city",
     phone := some "(515) 283-4209",
     linkedin_url := some "https://www.linkedin.com/in/laura-baumgartner-desmoines",
     source := some "Sample data", confidence_score := 1 },
   { name := "Steven Naber", title := "City Engineer", email := some "engineer@dsm.city",
     phone := some "(515) 283-4920",
     linkedin_url := some "https://www.linkedin.com/in/steven-naber-desmoines",
     source := some "Sample data", confidence_score := 1 }]

/-- The hardcoded Cedar Rapids demo records of `search_direct_for_officials`. -/
def cedar_rapids_sample : List Official :=
  [{ name := "Tiffany O\x27Donnell", title := "Mayor", email := some "mayor@cedar-rapids.org",
     phone := some "(319) 286-5051",
     linkedin_url := some "https://www.linkedin.com/in/tiffany-odonnell-cedarrapids",
     source := some "Sample data", confidence_score := 1 },
   { name := "Jeff Pomeranz", title := "City Manager", email := some "j.pomeranz@cedar-rapids.org",
     phone := some "(319) 286-5080",
     linkedin_url := some "https://www.linkedin.com/in/jeff-pomeranz-cedarrapids",
     source := some "Sample data", confidence_score := 1 },
   { name := "Angie Charipar", title := "Assistant City Manager",
     email := some "a.charipar@cedar-rapids.org", phone := some "(319) 286-5090",
     linkedin_url := some "https://www.linkedin.com/in/angie-charipar-cedarrapids",
     source := some "Sample data", confidence_score := 1 },
   { name := "Robert Davis", title := "Public Works Director",
     email := some "r.davis@cedar-rapids.org", phone := some "(319) 286-5802",
     linkedin_url := some "https://www.linkedin.com/in/robert-davis-cedarrapids",
     source := some "Sample data", confidence_score := 1 },
   { name := "Amy Stevenson", title := "City Clerk", email := some "cityclerk@cedar-rapids.org",
     phone := some "(319) 286-5060",
     linkedin_url := some "https://www.linkedin.com/in/amy-stevenson-cedarrapids",
     source := some "Sample data", confidence_score := 1 }]

/-- `search_direct_for_officials` from `scraper.py`: find the municipal
website, scrape every contact page found under it, fall back to the hardcoded
demo records for Des Moines / Cedar Rapids when nothing was found, and pass
the result through `filter_officials` with its default threshold `0.6`. -/
def search_direct_for_officials (env : Env) (municipality_name state : String) :
    List Official × List String :=
  let w := find_municipal_website env.fetch municipality_name state
  let r :=
    match w.1 with
    | some url =>
      let cp := find_contact_pages env.fetch url
      let s := cp.1.foldl
        (fun acc link =>
          let pr := scrape_municipal_website env link
          (acc.1 ++ pr.1, acc.2 ++ pr.2))
        ([], [])
      (s.1, cp.2 ++ s.2)
    | none => ([], [])
  let results :=
    if r.1.isEmpty then
      if municipality_name == "Des Moines" && state == "IA" then des_moines_sample
      else if municipality_name == "Cedar Rapids" && state == "IA" then cedar_rapids_sample
      else r.1
    else r.1
  (filter_officials results (6/10), w.2 ++ r.2)

/-- `search_for_officials` from `scraper.py`, the public entry point: Google
search, municipal-website scrape, direct search, then
`score_and_deduplicate`.  The second component lists every URL fetched, in
order.  The source performs no validation of its inputs before these
network calls. -/
def search_for_officials (env : Env) (municipality_name state : String) :
    List Official × List String :=
  let g := search_google env (municipality_name ++ " " ++ state ++ " mayor council contact")
  let w := find_municipal_website env.fetch municipality_name state
  let ws :=
    match w.1 with
    | some url => scrape_municipal_website env url
    | none => ([], [])
  let d := search_direct_for_officials env municipality_name state
  let results := g.1 ++ ws.1 ++ d.1
  (score_and_deduplicate env.linkedinLookup results municipality_name state,
    g.2 ++ w.2 ++ ws.2 ++ d.2)

/-! ## Legacy module (`civileads/scraper.py`)

The repository also contains an older `score_and_deduplicate` that does not
validate entries and seeds its score from the record's incoming
`confidence_score`, adding completeness and source bonuses.  Records reaching
it always carry a `source` value. -/

/-- The grouping loop of the legacy `score_and_deduplicate` (no validation). -/
def legacy_groupByKey (l : List Official) : List MergeGroup :=
  l.foldl (fun gs o => addToGroup gs (officialKey o) o) []

/-- Processing of one group in the legacy `score_and_deduplicate`: start from
the seed's incoming `confidence_score`, add completeness and source-quality
bonuses, merge later members with per-field bonuses, optionally enrich the
LinkedIn URL, and cap the score at `1.0`. -/
def legacy_processGroup (lookup : String → String → Option String)
    (municipality_name state : String) (seed : Official) (rest : List Official) : Official :=
  let score := seed.confidence_score
  let score := score + (if truthy seed.email then (2 : ℚ)/10 else 0)
  let score := score + (if truthy seed.phone then (1 : ℚ)/10 else 0)
  let score := score +
    (if !(seed.source == some "Google Search") then
      (if hasSub ".gov" (seed.source.getD "") then (3 : ℚ)/10 else (1 : ℚ)/10)
    else 0)
  let p := rest.foldl
    (fun (p : Official × ℚ) m =>
      let p :=
        if !truthy p.1.email && truthy m.email then
          ({ p.1 with email := m.email }, p.2 + (1 : ℚ)/10)
        else p
      let p :=
        if !truthy p.1.phone && truthy m.phone then
          ({ p.1 with phone := m.phone }, p.2 + (5 : ℚ)/100)
        else p
      if !truthy p.1.linkedin_url && truthy m.linkedin_url then
        ({ p.1 with linkedin_url := m.linkedin_url }, p.2 + (15 : ℚ)/100)
      else p)
    (seed, score)
  let p :=
    if !truthy p.1.linkedin_url && !(municipality_name == "") && !(state == "") then
      match lookup p.1.name p.1.title with
      | some url => ({ p.1 with linkedin_url := some url }, p.2 + (15 : ℚ)/100)
      | none => p
    else p
  { p.1 with confidence_score := min 1 p.2 }

/-- The legacy `score_and_deduplicate` from `civileads/scraper.py`. -/
def legacy_score_and_deduplicate (lookup : String → String → Option String)
    (officials_list : List Official) (municipality_name state : String) : List Official :=
  if officials_list.isEmpty then []
  else
    sortDesc
      ((legacy_groupByKey officials_list).map
        (fun g => legacy_processGroup lookup municipality_name state g.2.1 g.2.2))

/-! ## Lemmas about `validate_phone` -/

theorem formatPhone11_eq (d : List Char) : formatPhone11 d = formatPhone10 (d.drop 1) := by
  simp [formatPhone10, formatPhone11, List.drop_drop]

theorem formatPhone10_toList (d : List Char) :
    (formatPhone10 d).toList =
      ((((['('] ++ d.take 3) ++ [')', ' ']) ++ (d.drop 3).take 3) ++ ['-']) ++
        (d.drop 6).take 4 := rfl

theorem formatPhone10_digits (d : List Char) (h10 : d.length = 10)
    (hd : ∀ c ∈ d, c.isDigit) : (formatPhone10 d).toList.filter Char.isDigit = d := by
  have t1 : (d.take 3).filter Char.isDigit = d.take 3 :=
    List.filter_eq_self.mpr fun c hc => hd c (List.mem_of_mem_take hc)
  have t2 : ((d.drop 3).take 3).filter Char.isDigit = (d.drop 3).take 3 :=
    List.filter_eq_self.mpr fun c hc => hd c (List.mem_of_mem_drop (List.mem_of_mem_take hc))
  have t3 : ((d.drop 6).take 4).filter Char.isDigit = (d.drop 6).take 4 :=
    List.filter_eq_self.mpr fun c hc => hd c (List.mem_of_mem_drop (List.mem_of_mem_take hc))
  have h4 : (d.drop 6).take 4 = d.drop 6 := by
    refine List.take_of_length_le ?_
    rw [List.length_drop]; omega
  have h1 : (formatPhone10 d).toList =
      '(' :: (d.take 3 ++ [')', ' '] ++ ((d.drop 3).take 3 ++ ['-'] ++ (d.drop 6).take 4)) := by
    rw [formatPhone10_toList]; simp [List.append_assoc]
  rw [h1]
  have c1 : '('.isDigit = false := by decide
  have c2 : ')'.isDigit = false := by decide
  have c3 : ' '.isDigit = false := by decide
  have c4 : '-'.isDigit = false := by decide
  simp only [List.filter_cons, List.filter_append, List.filter_nil, c1, c2, c3, c4, t1, t2, t3,
    if_false, Bool.false_eq_true, List.nil_append, List.append_nil]
  rw [h4, show List.drop 6 d = List.drop 3 (List.drop 3 d) from by simp [List.drop_drop]]
  rw [List.take_append_drop, List.take_append_drop]

theorem formatPhone10_ne_empty (d : List Char) : formatPhone10 d ≠ "" := by
  intro h
  have := congrArg String.toList h
  rw [formatPhone10_toList] at this
  simp at this

theorem validate_phone_of_format (e : List Char) (h10 : e.length = 10)
    (hd : ∀ c ∈ e, c.isDigit) :
    validate_phone (formatPhone10 e) = some (formatPhone10 e) := by
  unfold validate_phone
  rw [beq_false_of_ne (formatPhone10_ne_empty e)]
  simp only [Bool.false_eq_true, if_false, formatPhone10_digits e h10 hd, h10]
  norm_num

theorem validate_phone_some_shape (s : String) (fp : String)
    (h : validate_phone s = some fp) :
    ∃ e : List Char, e.length = 10 ∧ (∀ c ∈ e, c.isDigit) ∧ fp = formatPhone10 e := by
  unfold validate_phone at h
  by_cases hs : s = ""
  · rw [hs] at h; simp at h
  · rw [beq_false_of_ne hs] at h
    simp only [Bool.false_eq_true, if_false] at h
    set digits := s.toList.filter Char.isDigit with hdig
    have hall : ∀ c ∈ digits, c.isDigit := fun c hc => List.of_mem_filter hc
    by_cases h10 : digits.length = 10
    · refine ⟨digits, h10, hall, ?_⟩
      rw [if_pos (by simpa using h10)] at h
      exact (Option.some_injective _ h).symm
    · rw [if_neg (by simpa using h10)] at h
      by_cases h11 : digits.length = 11 ∧ digits.take 1 = ['1']
      · refine ⟨digits.drop 1, by rw [List.length_drop, h11.1], fun c hc => hall c (List.mem_of_mem_drop hc), ?_⟩
        rw [if_pos (by simp [h11.1, h11.2])] at h
        rw [← formatPhone11_eq]
        exact (Option.some_injective _ h).symm
      · rw [if_neg ?_] at h
        · simp at h
        · simp only [Bool.and_eq_true, beq_iff_eq]
          intro ⟨a, b⟩
          exact h11 ⟨a, by simpa using b⟩

theorem validate_phone_canon (s fp : String) (h : validate_phone s = some fp) :
    validate_phone fp = some fp := by
  obtain ⟨e, h10, hd, rfl⟩ := validate_phone_some_shape s fp h
  exact validate_phone_of_format e h10 hd

theorem validate_phone_some_ne_empty (s fp : String) (h : validate_phone s = some fp) :
    fp ≠ "" := by
  obtain ⟨e, _, _, rfl⟩ := validate_phone_some_shape s fp h
  exact formatPhone10_ne_empty e

theorem validate_phone_empty : validate_phone "" = none := rfl

/-- C3: for every input string, `validate_phone` strips all non-digit
characters; exactly 10 remaining digits are formatted as `(AAA) BBB-CCCC`;
exactly 11 remaining digits with a leading `'1'` have their last 10 digits
formatted the same way; any other digit count yields `none`. -/
theorem validate_phone_meets_spec (s : String) : validate_phone s = validate_phone_spec s := by
  unfold validate_phone validate_phone_spec
  by_cases hs : s = ""
  · subst hs; rfl
  · rw [beq_false_of_ne hs]
    simp only [Bool.false_eq_true, if_false, formatPhone11_eq]

/-! ## Lemmas about `calculate_confidence_score` -/

theorem phoneRes_eq (o : Official) :
    (if truthy o.phone then validate_phone (o.phone.getD "") else none) =
      validate_phone (o.phone.getD "") := by
  cases hp : o.phone with
  | none => simp [truthy, validate_phone_empty]
  | some s =>
    by_cases hs : s = ""
    · subst hs; simp [truthy, validate_phone_empty]
    · simp [truthy, hs]

/-- Closed form of the scorer: the score is the weighted sum of the five
signals, and the record comes back unchanged except that a valid phone is
canonicalised. -/
theorem calc_eq (o : Official) :
    calculate_confidence_score o =
      ((if validate_official_name o.name then (4 : ℚ)/10 else 0) +
        (if validate_official_title o.title then (2 : ℚ)/10 else 0) +
        (if validate_email (o.email.getD "") then (2 : ℚ)/10 else 0) +
        (if (validate_phone (o.phone.getD "")).isSome then (1 : ℚ)/10 else 0) +
        (if truthy o.linkedin_url then (1 : ℚ)/10 else 0),
       match validate_phone (o.phone.getD "") with
       | some fp => { o with phone := some fp }
       | none => o) := by
  unfold calculate_confidence_score
  rw [phoneRes_eq o]
  cases hv : validate_phone (o.phone.getD "") with
  | none => norm_num
  | some fp => norm_num

theorem calc_fst (o : Official) :
    (calculate_confidence_score o).1 =
      (if validate_official_name o.name then (4 : ℚ)/10 else 0) +
        (if validate_official_title o.title then (2 : ℚ)/10 else 0) +
        (if validate_email (o.email.getD "") then (2 : ℚ)/10 else 0) +
        (if (validate_phone (o.phone.getD "")).isSome then (1 : ℚ)/10 else 0) +
        (if truthy o.linkedin_url then (1 : ℚ)/10 else 0) := by
  rw [calc_eq]

theorem calc_snd (o : Official) :
    (calculate_confidence_score o).2 =
      match validate_phone (o.phone.getD "") with
      | some fp => { o with phone := some fp }
      | none => o := by
  rw [calc_eq]

/-- C1: the confidence score is the sum of the weights of the satisfied
signals — name validity (0.4), title validity (0.2), email validity (0.2),
phone formats successfully (0.1), linkedin URL present (0.1) — divided by the
fixed total weight 1.0; it is exactly 1 iff all five signals pass; and a
record satisfying only the name and title signals scores 0.6. -/
theorem confidence_score_is_weighted_sum (o : Official) :
    (calculate_confidence_score o).1 =
      ((if validate_official_name o.name then (4 : ℚ)/10 else 0) +
        (if validate_official_title o.title then (2 : ℚ)/10 else 0) +
        (if validate_email (o.email.getD "") then (2 : ℚ)/10 else 0) +
        (if (validate_phone (o.phone.getD "")).isSome then (1 : ℚ)/10 else 0) +
        (if truthy o.linkedin_url then (1 : ℚ)/10 else 0)) / 1 ∧
    ((calculate_confidence_score o).1 = 1 ↔
      (validate_official_name o.name = true ∧ validate_official_title o.title = true ∧
        validate_email (o.email.getD "") = true ∧
        (validate_phone (o.phone.getD "")).isSome = true ∧ truthy o.linkedin_url = true)) ∧
    (validate_official_name o.name = true → validate_official_title o.title = true →
      validate_email (o.email.getD "") = false →
      (validate_phone (o.phone.getD "")).isSome = false → truthy o.linkedin_url = false →
      (calculate_confidence_score o).1 = 6/10) := by
  refine ⟨by rw [calc_fst, div_one], ?_, ?_⟩
  · rw [calc_fst]
    cases hn : validate_official_name o.name <;>
      cases ht : validate_official_title o.title <;>
        cases he : validate_email (o.email.getD "") <;>
          cases hp : (validate_phone (o.phone.getD "")).isSome <;>
            cases hl : truthy o.linkedin_url <;>
              norm_num
  · intro hn ht he hp hl
    rw [calc_fst, hn, ht, he, hp, hl]
    norm_num

/-- Witness for C1 at a concrete record with a valid name and title and no
other signal. -/
theorem confidence_score_is_weighted_sum_witness :
    (calculate_confidence_score { name := "Jane Doe", title := "Clerk" : Official }).1 = 6/10 :=
  (confidence_score_is_weighted_sum { name := "Jane Doe", title := "Clerk" }).2.2
    (by decide) (by decide) (by decide) (by decide) (by decide)

/-- C8: scoring is idempotent — scoring the record produced by a first scoring
pass (whose only effect is phone canonicalisation) yields the same score. -/
theorem confidence_score_idempotent (o : Official) :
    (calculate_confidence_score (calculate_confidence_score o).2).1 =
      (calculate_confidence_score o).1 := by
  rw [calc_snd]
  cases hv : validate_phone (o.phone.getD "") with
  | none => rfl
  | some fp =>
    have hcanon : validate_phone fp = some fp := validate_phone_canon _ _ hv
    rw [calc_fst, calc_fst]
    simp [hcanon, hv]

/-- C10: scoring leaves every field except `phone` unchanged, and changes
`phone` exactly when `validate_phone` succeeds on the current value, replacing
it with the canonical form. -/
theorem confidence_score_frame (o : Official) :
    ((calculate_confidence_score o).2).name = o.name ∧
    ((calculate_confidence_score o).2).title = o.title ∧
    ((calculate_confidence_score o).2).email = o.email ∧
    ((calculate_confidence_score o).2).linkedin_url = o.linkedin_url ∧
    ((calculate_confidence_score o).2).source = o.source ∧
    ((calculate_confidence_score o).2).confidence_score = o.confidence_score ∧
    (∀ fp, validate_phone (o.phone.getD "") = some fp →
      ((calculate_confidence_score o).2).phone = some fp) ∧
    (validate_phone (o.phone.getD "") = none →
      ((calculate_confidence_score o).2).phone = o.phone) := by
  rw [calc_snd]
  cases hv : validate_phone (o.phone.getD "") with
  | none => simp
  | some fp => simp

/-- Witness for C10 at a record whose phone is valid but not canonical. -/
theorem confidence_score_frame_witness :
    ((calculate_confidence_score
        { name := "Bob Ray", title := "Clerk", phone := some "515-555-1234" : Official }).2).phone =
      some "(515) 555-1234" ∧
    ((calculate_confidence_score
        { name := "Bob Ray", title := "Clerk", phone := some "515-555-1234" : Official }).2).name =
      "Bob Ray" :=
  ⟨(confidence_score_frame
      { name := "Bob Ray", title := "Clerk", phone := some "515-555-1234" }).2.2.2.2.2.2.1
      "(515) 555-1234" (by decide),
   (confidence_score_frame { name := "Bob Ray", title := "Clerk", phone := some "515-555-1234" }).1⟩

/-! ## Lemmas about the merge step -/

theorem fillFrom_name (b m : Official) : (fillFrom b m).name = b.name := by
  unfold fillFrom
  by_cases h1 : (!truthy b.email && truthy m.email) = true <;>
    by_cases h2 : (!truthy b.phone && truthy m.phone) = true <;>
      by_cases h3 : (!truthy b.linkedin_url && truthy m.linkedin_url) = true <;>
        simp [h1, h2, h3]

theorem fillFrom_title (b m : Official) : (fillFrom b m).title = b.title := by
  unfold fillFrom
  by_cases h1 : (!truthy b.email && truthy m.email) = true <;>
    by_cases h2 : (!truthy b.phone && truthy m.phone) = true <;>
      by_cases h3 : (!truthy b.linkedin_url && truthy m.linkedin_url) = true <;>
        simp [h1, h2, h3]

theorem fillFrom_source (b m : Official) : (fillFrom b m).source = b.source := by
  unfold fillFrom
  by_cases h1 : (!truthy b.email && truthy m.email) = true <;>
    by_cases h2 : (!truthy b.phone && truthy m.phone) = true <;>
      by_cases h3 : (!truthy b.linkedin_url && truthy m.linkedin_url) = true <;>
        simp [h1, h2, h3]

theorem fillFrom_conf (b m : Official) : (fillFrom b m).confidence_score = b.confidence_score := by
  unfold fillFrom
  by_cases h1 : (!truthy b.email && truthy m.email) = true <;>
    by_cases h2 : (!truthy b.phone && truthy m.phone) = true <;>
      by_cases h3 : (!truthy b.linkedin_url && truthy m.linkedin_url) = true <;>
        simp [h1, h2, h3]

theorem fillFrom_email (b m : Official) :
    (fillFrom b m).email = if !truthy b.email && truthy m.email then m.email else b.email := by
  unfold fillFrom
  by_cases h1 : (!truthy b.email && truthy m.email) = true <;>
    by_cases h2 : (!truthy b.phone && truthy m.phone) = true <;>
      by_cases h3 : (!truthy b.linkedin_url && truthy m.linkedin_url) = true <;>
        simp [h1, h2, h3]

theorem fillFrom_phone (b m : Official) :
    (fillFrom b m).phone = if !truthy b.phone && truthy m.phone then m.phone else b.phone := by
  unfold fillFrom
  by_cases h1 : (!truthy b.email && truthy m.email) = true <;>
    by_cases h2 : (!truthy b.phone && truthy m.phone) = true <;>
      by_cases h3 : (!truthy b.linkedin_url && truthy m.linkedin_url) = true <;>
        simp [h1, h2, h3]

theorem fillFrom_linkedin (b m : Official) :
    (fillFrom b m).linkedin_url =
      if !truthy b.linkedin_url && truthy m.linkedin_url then m.linkedin_url
      else b.linkedin_url := by
  unfold fillFrom
  by_cases h1 : (!truthy b.email && truthy m.email) = true <;>
    by_cases h2 : (!truthy b.phone && truthy m.phone) = true <;>
      by_cases h3 : (!truthy b.linkedin_url && truthy m.linkedin_url) = true <;>
        simp [h1, h2, h3]

/-- The first truthy value in a list of optional fields (first-non-empty-wins
order of the merge loop). -/
def firstTruthy : List (Option String) → Option String
  | [] => none
  | x :: r => if truthy x then x else firstTruthy r

theorem foldl_fill_name (rest : List Official) :
    ∀ seed, (rest.foldl fillFrom seed).name = seed.name := by
  induction rest with
  | nil => intro seed; rfl
  | cons m rest ih => intro seed; rw [List.foldl_cons, ih, fillFrom_name]

theorem foldl_fill_title (rest : List Official) :
    ∀ seed, (rest.foldl fillFrom seed).title = seed.title := by
  induction rest with
  | nil => intro seed; rfl
  | cons m rest ih => intro seed; rw [List.foldl_cons, ih, fillFrom_title]

theorem foldl_fill_source (rest : List Official) :
    ∀ seed, (rest.foldl fillFrom seed).source = seed.source := by
  induction rest with
  | nil => intro seed; rfl
  | cons m rest ih => intro seed; rw [List.foldl_cons, ih, fillFrom_source]

theorem foldl_fill_conf (rest : List Official) :
    ∀ seed, (rest.foldl fillFrom seed).confidence_score = seed.confidence_score := by
  induction rest with
  | nil => intro seed; rfl
  | cons m rest ih => intro seed; rw [List.foldl_cons, ih, fillFrom_conf]

theorem foldl_fill_email (rest : List Official) :
    ∀ seed, (rest.foldl fillFrom seed).email =
      match firstTruthy (seed.email :: rest.map (·.email)) with
      | some v => some v
      | none => seed.email := by
  induction rest with
  | nil =>
    intro seed
    cases hse : seed.email with
    | none => simp [firstTruthy, truthy, hse]
    | some s => by_cases hs : s = "" <;> simp [firstTruthy, truthy, hs, hse]
  | cons m rest ih =>
    intro seed
    rw [List.foldl_cons, ih (fillFrom seed m), fillFrom_email]
    by_cases hs : truthy seed.email <;> by_cases hm : truthy m.email <;>
      cases hme : m.email <;> simp_all [firstTruthy, truthy]

theorem foldl_fill_phone (rest : List Official) :
    ∀ seed, (rest.foldl fillFrom seed).phone =
      match firstTruthy (seed.phone :: rest.map (·.phone)) with
      | some v => some v
      | none => seed.phone := by
  induction rest with
  | nil =>
    intro seed
    cases hse : seed.phone with
    | none => simp [firstTruthy, truthy, hse]
    | some s => by_cases hs : s = "" <;> simp [firstTruthy, truthy, hs, hse]
  | cons m rest ih =>
    intro seed
    rw [List.foldl_cons, ih (fillFrom seed m), fillFrom_phone]
    by_cases hs : truthy seed.phone <;> by_cases hm : truthy m.phone <;>
      cases hme : m.phone <;> simp_all [firstTruthy, truthy]

theorem foldl_fill_linkedin (rest : List Official) :
    ∀ seed, (rest.foldl fillFrom seed).linkedin_url =
      match firstTruthy (seed.linkedin_url :: rest.map (·.linkedin_url)) with
      | some v => some v
      | none => seed.linkedin_url := by
  induction rest with
  | nil =>
    intro seed
    cases hse : seed.linkedin_url with
    | none => simp [firstTruthy, truthy, hse]
    | some s => by_cases hs : s = "" <;> simp [firstTruthy, truthy, hs, hse]
  | cons m rest ih =>
    intro seed
    rw [List.foldl_cons, ih (fillFrom seed m), fillFrom_linkedin]
    by_cases hs : truthy seed.linkedin_url <;> by_cases hm : truthy m.linkedin_url <;>
      cases hme : m.linkedin_url <;> simp_all [firstTruthy, truthy]

/-! ## Lemmas about grouping and sorting -/

/-- Lookup of the entry with key `k` (Python dict access order). -/
def findG (gs : List MergeGroup) (k : Key) : Option MergeGroup :=
  gs.find? (fun g => decide (g.1 = k))

theorem addToGroup_find_same (gs : List MergeGroup) (k : Key) (o : Official) :
    findG (addToGroup gs k o) k =
      match findG gs k with
      | some g => some (g.1, g.2.1, g.2.2 ++ [o])
      | none => some (k, o, []) := by
  induction gs with
  | nil => simp [findG, addToGroup, List.find?]
  | cons g gs ih =>
    obtain ⟨k', s, os⟩ := g
    by_cases h : k' = k
    · subst h
      simp [findG, addToGroup, List.find?]
    · simp only [findG, addToGroup, if_neg h] at ih ⊢
      rw [List.find?_cons_of_neg _ (by simpa using h), List.find?_cons_of_neg _ (by simpa using h)]
      exact ih

theorem addToGroup_find_other (gs : List MergeGroup) (k : Key) (o : Official) (k' : Key)
    (h : k' ≠ k) :
    findG (addToGroup gs k o) k' = findG gs k' := by
  induction gs with
  | nil =>
    simp only [findG, addToGroup]
    rw [List.find?_cons_of_neg _ (by intro hp; simp at hp; exact h hp.symm)]
  | cons g gs ih =>
    obtain ⟨k₀, s, os⟩ := g
    simp only [addToGroup]
    by_cases h0 : k₀ = k
    · rw [if_pos h0]
      simp only [findG]
      rw [List.find?_cons_of_neg _
          (by intro hp; simp at hp; exact h (hp.symm.trans h0)),
        List.find?_cons_of_neg _
          (by intro hp; simp at hp; exact h (hp.symm.trans h0))]
    · rw [if_neg h0]
      simp only [findG] at ih ⊢
      by_cases hq : k₀ = k'
      · rw [List.find?_cons_of_pos _ (by simp [hq]), List.find?_cons_of_pos _ (by simp [hq])]
      · rw [List.find?_cons_of_neg _ (by intro hp; simp at hp; exact hq hp),
          List.find?_cons_of_neg _ (by intro hp; simp at hp; exact hq hp)]
        exact ih

theorem groupFold_find (l : List Official) : ∀ (gs : List MergeGroup) (k : Key),
    findG (l.foldl (fun gs o => if validOfficial o then addToGroup gs (officialKey o) o else gs)
        gs) k =
      match findG gs k with
      | some g =>
        some (g.1, g.2.1,
          g.2.2 ++ l.filter (fun o => validOfficial o && decide (officialKey o = k)))
      | none =>
        match l.filter (fun o => validOfficial o && decide (officialKey o = k)) with
        | [] => none
        | s :: r => some (k, s, r) := by
  induction l with
  | nil =>
    intro gs k
    cases hg : findG gs k <;> simp [List.foldl_nil, hg]
  | cons o l ih =>
    intro gs k
    rw [List.foldl_cons]
    by_cases hv : validOfficial o = true
    · by_cases hk : officialKey o = k
      · rw [if_pos hv, hk, ih (addToGroup gs k o) k, addToGroup_find_same]
        cases hg : findG gs k with
        | some g => simp [List.filter_cons, hv, hk, List.append_assoc]
        | none => simp [List.filter_cons, hv, hk]
      · rw [if_pos hv, ih (addToGroup gs (officialKey o) o) k,
          addToGroup_find_other _ _ _ _ (fun h => hk h.symm)]
        have : (validOfficial o && decide (officialKey o = k)) = false := by
          simp [hk]
        simp [List.filter_cons, this]
    · rw [if_neg hv, ih gs k]
      have : (validOfficial o && decide (officialKey o = k)) = false := by
        simp [Bool.eq_false_iff.mpr hv]
      simp [List.filter_cons, this]

theorem groupByKey_find (l : List Official) (k : Key) :
    findG (groupByKey l) k =
      match l.filter (fun o => validOfficial o && decide (officialKey o = k)) with
      | [] => none
      | s :: r => some (k, s, r) := by
  have := groupFold_find l [] k
  simpa [findG] using this

theorem addToGroup_keys (gs : List MergeGroup) (k : Key) (o : Official) :
    (addToGroup gs k o).map (·.1) =
      if gs.any (fun g => decide (g.1 = k)) then gs.map (·.1) else gs.map (·.1) ++ [k] := by
  induction gs with
  | nil => simp [addToGroup]
  | cons g gs ih =>
    obtain ⟨k₀, s, os⟩ := g
    simp only [addToGroup]
    by_cases h0 : k₀ = k
    · rw [if_pos h0]
      simp [h0]
    · rw [if_neg h0]
      simp only [List.map_cons, List.any_cons, ih]
      by_cases ha : gs.any (fun g => decide (g.1 = k)) = true
      · simp [ha, h0]
      · simp [Bool.eq_false_iff.mpr ha, h0]

theorem groupFold_keys_nodup (l : List Official) : ∀ (gs : List MergeGroup),
    ((gs.map (·.1)).Nodup) →
    (((l.foldl (fun gs o => if validOfficial o then addToGroup gs (officialKey o) o else gs)
        gs).map (·.1)).Nodup) := by
  induction l with
  | nil => intro gs h; simpa using h
  | cons o l ih =>
    intro gs h
    rw [List.foldl_cons]
    by_cases hv : validOfficial o = true
    · rw [if_pos hv]
      refine ih _ ?_
      rw [addToGroup_keys]
      by_cases ha : gs.any (fun g => decide (g.1 = officialKey o)) = true
      · rw [if_pos ha]; exact h
      · rw [if_neg ha]
        have hnotin : officialKey o ∉ gs.map (·.1) := by
          intro hmem
          obtain ⟨g, hg, hgk⟩ := List.mem_map.mp hmem
          have := (List.any_eq_false.mp (Bool.eq_false_iff.mpr ha)) g hg
          simp [hgk] at this
        simp [List.nodup_append, h, hnotin]
    · rw [if_neg hv]; exact ih gs h

theorem groupByKey_keys_nodup (l : List Official) : ((groupByKey l).map (·.1)).Nodup :=
  groupFold_keys_nodup l [] (by simp)

theorem addToGroup_seed_mem (gs : List MergeGroup) (k : Key) (o : Official) :
    ∀ g ∈ addToGroup gs k o, (∃ g' ∈ gs, g.2.1 = g'.2.1) ∨ g.2.1 = o := by
  induction gs with
  | nil =>
    intro g hg
    simp [addToGroup] at hg
    subst hg
    right; rfl
  | cons g₀ gs ih =>
    obtain ⟨k₀, s, os⟩ := g₀
    simp only [addToGroup]
    by_cases h0 : k₀ = k
    · rw [if_pos h0]
      intro g hg
      rcases List.mem_cons.mp hg with hg | hg
      · subst hg; left; exact ⟨(k₀, s, os), List.mem_cons_self _ _, rfl⟩
      · left; exact ⟨g, List.mem_cons_of_mem _ hg, rfl⟩
    · rw [if_neg h0]
      intro g hg
      rcases List.mem_cons.mp hg with hg | hg
      · subst hg; left; exact ⟨(k₀, s, os), List.mem_cons_self _ _, rfl⟩
      · rcases ih g hg with ⟨g', hg', he⟩ | he
        · left; exact ⟨g', List.mem_cons_of_mem _ hg', he⟩
        · right; exact he

theorem groupFold_seed_valid (l : List Official) : ∀ (gs : List MergeGroup),
    (∀ g ∈ gs, validOfficial g.2.1 = true) →
    ∀ g ∈ l.foldl (fun gs o => if validOfficial o then addToGroup gs (officialKey o) o else gs) gs,
      validOfficial g.2.1 = true := by
  induction l with
  | nil => intro gs h; simpa using h
  | cons o l ih =>
    intro gs h
    rw [List.foldl_cons]
    by_cases hv : validOfficial o = true
    · rw [if_pos hv]
      refine ih _ ?_
      intro g hg
      rcases addToGroup_seed_mem gs (officialKey o) o g hg with ⟨g', hg', he⟩ | he
      · rw [he]; exact h g' hg'
      · rw [he]; exact hv
    · rw [if_neg hv]; exact ih gs h

theorem groupByKey_seed_valid (l : List Official) :
    ∀ g ∈ groupByKey l, validOfficial g.2.1 = true :=
  groupFold_seed_valid l [] (by simp)

theorem insertDesc_perm (o : Official) (l : List Official) :
    List.Perm (insertDesc o l) (o :: l) := by
  induction l with
  | nil => exact List.Perm.refl _
  | cons x xs ih =>
    simp only [insertDesc]
    by_cases h : o.confidence_score ≤ x.confidence_score
    · rw [if_pos h]
      exact List.Perm.trans (List.Perm.cons x ih) (List.Perm.swap o x xs)
    · rw [if_neg h]

theorem sortDesc_perm_aux (l : List Official) : ∀ acc,
    List.Perm (l.foldl (fun acc o => insertDesc o acc) acc) (l ++ acc) := by
  induction l with
  | nil => intro acc; exact List.Perm.refl _
  | cons o l ih =>
    intro acc
    rw [List.foldl_cons]
    refine List.Perm.trans (ih (insertDesc o acc)) ?_
    refine List.Perm.trans (List.Perm.append_left l (insertDesc_perm o acc)) ?_
    exact List.perm_middle

theorem sortDesc_perm (l : List Official) : List.Perm (sortDesc l) l := by
  simpa using sortDesc_perm_aux l []

/-! ## Lemmas about `processGroup` -/

theorem calc_snd_name (o : Official) : ((calculate_confidence_score o).2).name = o.name := by
  rw [calc_snd]; cases hv : validate_phone (o.phone.getD "") <;> rfl

theorem calc_snd_title (o : Official) : ((calculate_confidence_score o).2).title = o.title := by
  rw [calc_snd]; cases hv : validate_phone (o.phone.getD "") <;> rfl

theorem calc_fst_conf (o : Official) (c : ℚ) :
    (calculate_confidence_score { o with confidence_score := c }).1 =
      (calculate_confidence_score o).1 := by
  rw [calc_fst, calc_fst]

theorem revalidate_after_calc (x : Official) (c : ℚ) :
    revalidatePhone { (calculate_confidence_score x).2 with confidence_score := c } =
      { (calculate_confidence_score x).2 with confidence_score := c } := by
  rw [calc_snd]
  cases hv : validate_phone (x.phone.getD "") with
  | none =>
    by_cases ht : truthy x.phone
    · simp [revalidatePhone, ht, hv]
    · simp [revalidatePhone, ht]
  | some fp =>
    have hne : fp ≠ "" := validate_phone_some_ne_empty _ _ hv
    have hcanon := validate_phone_canon _ _ hv
    simp [revalidatePhone, truthy, hne, hcanon]

theorem enrichLinkedin_name (lookup : String → String → Option String) (m s : String)
    (b : Official) : (enrichLinkedin lookup m s b).name = b.name := by
  unfold enrichLinkedin
  by_cases hc : (!truthy b.linkedin_url && !(m == "") && !(s == "")) = true
  · rw [if_pos hc]
    cases lookup b.name b.title <;> rfl
  · rw [if_neg hc]

theorem enrichLinkedin_title (lookup : String → String → Option String) (m s : String)
    (b : Official) : (enrichLinkedin lookup m s b).title = b.title := by
  unfold enrichLinkedin
  by_cases hc : (!truthy b.linkedin_url && !(m == "") && !(s == "")) = true
  · rw [if_pos hc]
    cases lookup b.name b.title <;> rfl
  · rw [if_neg hc]

theorem processGroup_spec (lookup : String → String → Option String) (m s : String)
    (seed : Official) (rest : List Official) :
    ∃ mid : Official, mid.name = seed.name ∧ mid.title = seed.title ∧
      processGroup lookup m s seed rest =
        { (calculate_confidence_score mid).2 with
          confidence_score := (calculate_confidence_score mid).1 } := by
  refine ⟨enrichLinkedin lookup m s (rest.foldl fillFrom seed), ?_, ?_, ?_⟩
  · rw [enrichLinkedin_name, foldl_fill_name]
  · rw [enrichLinkedin_title, foldl_fill_title]
  · exact revalidate_after_calc _ _

theorem calc_idem (o : Official) :
    (calculate_confidence_score (calculate_confidence_score o).2).1 =
      (calculate_confidence_score o).1 := by
  rw [calc_snd]
  cases hv : validate_phone (o.phone.getD "") with
  | none => rfl
  | some fp =>
    have hcanon : validate_phone fp = some fp := validate_phone_canon _ _ hv
    rw [calc_fst, calc_fst]
    simp [hcanon, hv]

theorem calc_ge_six (o : Official) (hn : validate_official_name o.name = true)
    (ht : validate_official_title o.title = true) :
    6/10 ≤ (calculate_confidence_score o).1 := by
  rw [calc_fst, hn, ht]
  simp only [if_true]
  split_ifs <;> norm_num

theorem mem_score_dedup (lookup : String → String → Option String) (l : List Official)
    (m s : String) (o : Official) (h : o ∈ score_and_deduplicate lookup l m s) :
    ∃ g ∈ groupByKey l, o = processGroup lookup m s g.2.1 g.2.2 := by
  unfold score_and_deduplicate at h
  by_cases he : l.isEmpty
  · rw [if_pos he] at h; simp at h
  · rw [if_neg he] at h
    have hm := (sortDesc_perm _).mem_iff.mp h
    obtain ⟨g, hg, rfl⟩ := List.mem_map.mp hm
    exact ⟨g, hg, rfl⟩

theorem processGroup_eq (lookup : String → String → Option String) (m s : String)
    (seed : Official) (rest : List Official) :
    processGroup lookup m s seed rest =
      revalidatePhone
        { (calculate_confidence_score (enrichLinkedin lookup m s (rest.foldl fillFrom seed))).2
          with confidence_score :=
            (calculate_confidence_score
              (enrichLinkedin lookup m s (rest.foldl fillFrom seed))).1 } := rfl

theorem revalidatePhone_conf (b : Official) :
    (revalidatePhone b).confidence_score = b.confidence_score := by
  unfold revalidatePhone
  by_cases ht : truthy b.phone = true
  · rw [if_pos ht]
    cases validate_phone (b.phone.getD "") <;> rfl
  · rw [if_neg ht]

/-! ## Claim theorems about the merge/dedup pipeline -/

/-- First candidate of the spec's merge example (supplies only an email). -/
def c2_jane_email : Official :=
  { name := "Jane Doe", title := "Clerk", email := some "jane@city.gov", confidence_score := 1/2 }

/-- Second candidate of the spec's merge example (supplies only a phone). -/
def c2_jane_phone : Official :=
  { name := "Jane Doe", title := "Clerk", phone := some "5155551234", confidence_score := 1/2 }

/-- C2: `score_and_deduplicate` groups the validated candidates by
`(lowercased name, lowercased title)` and emits exactly one record per key
(the output is a permutation of one processed record per group; group keys
are pairwise distinct; the group of key `k` consists exactly of the valid
candidates with that key, in encounter order, seeded from the first); within
a group the merge loop fills `email`, `phone` and `linkedin_url` with the
first truthy value in encounter order, never overwriting an already-populated
field and leaving the other fields at the seed's values; and the spec's two
Jane Doe candidates merge into one record carrying both the email and the
(canonicalised) phone. -/
theorem merge_one_record_per_key_first_nonempty_wins
    (lookup : String → String → Option String) (l : List Official) (m s : String) :
    List.Perm (score_and_deduplicate lookup l m s)
      ((groupByKey l).map (fun g => processGroup lookup m s g.2.1 g.2.2)) ∧
    ((groupByKey l).map (·.1)).Nodup ∧
    (∀ k : Key, findG (groupByKey l) k =
      match l.filter (fun o => validOfficial o && decide (officialKey o = k)) with
      | [] => none
      | s' :: r => some (k, s', r)) ∧
    (∀ (seed : Official) (rest : List Official),
      (rest.foldl fillFrom seed).name = seed.name ∧
      (rest.foldl fillFrom seed).title = seed.title ∧
      (rest.foldl fillFrom seed).source = seed.source ∧
      (rest.foldl fillFrom seed).email =
        (match firstTruthy (seed.email :: rest.map (·.email)) with
          | some v => some v
          | none => seed.email) ∧
      (rest.foldl fillFrom seed).phone =
        (match firstTruthy (seed.phone :: rest.map (·.phone)) with
          | some v => some v
          | none => seed.phone) ∧
      (rest.foldl fillFrom seed).linkedin_url =
        (match firstTruthy (seed.linkedin_url :: rest.map (·.linkedin_url)) with
          | some v => some v
          | none => seed.linkedin_url)) ∧
    ((score_and_deduplicate (fun _ _ => none) [c2_jane_email, c2_jane_phone] "" "").map
        (fun o => (o.name, o.title, o.email, o.phone))) =
      [("Jane Doe", "Clerk", some "jane@city.gov", some "(515) 555-1234")] ∧
    ((score_and_deduplicate (fun _ _ => none) [c2_jane_email, c2_jane_phone] "" "").map
        (·.confidence_score)) = [9/10] := by
  have h0 : score_and_deduplicate (fun _ _ => none) [c2_jane_email, c2_jane_phone] "" "" =
      [processGroup (fun _ _ => none) "" "" c2_jane_email [c2_jane_phone]] := rfl
  refine ⟨?_, groupByKey_keys_nodup l, groupByKey_find l, ?_, ?_, ?_⟩
  · unfold score_and_deduplicate
    by_cases he : l.isEmpty
    · rw [if_pos he]
      have hl : l = [] := List.isEmpty_iff.mp he
      subst hl
      exact List.Perm.refl _
    · rw [if_neg he]
      exact sortDesc_perm _
  · intro seed rest
    exact ⟨foldl_fill_name rest seed, foldl_fill_title rest seed, foldl_fill_source rest seed,
      foldl_fill_email rest seed, foldl_fill_phone rest seed, foldl_fill_linkedin rest seed⟩
  · rw [h0, processGroup_eq]
    simp only [calc_eq]
    decide
  · rw [h0]
    simp only [List.map, processGroup_eq, revalidatePhone_conf]
    have hb : enrichLinkedin (fun _ _ => none) "" "" ([c2_jane_phone].foldl fillFrom c2_jane_email) =
        { name := "Jane Doe", title := "Clerk", email := some "jane@city.gov",
          phone := some "5155551234", linkedin_url := none, source := none,
          confidence_score := 1/2 } := rfl
    rw [hb, calc_fst]
    norm_num [show validate_official_name "Jane Doe" = true from by decide,
      show validate_official_title "Clerk" = true from by decide,
      show validate_email "jane@city.gov" = true from by decide,
      show (validate_phone "5155551234").isSome = true from by decide,
      show truthy (none : Option String) = false from by decide]

/-- C6: every record in the output of `score_and_deduplicate` has a name and a
title accepted by the validators (invalid entries are skipped before grouping
and the merged record keeps the seed's name and title); the denylist name
`"Acme Vendor Solutions"` fails validation, and a candidate carrying it is
excluded from the output even with a valid title and email. -/
theorem pipeline_output_name_title_validated :
    (∀ (lookup : String → String → Option String) (l : List Official) (m s : String)
        (o : Official), o ∈ score_and_deduplicate lookup l m s →
      validate_official_name o.name = true ∧ validate_official_title o.title = true) ∧
    validate_official_name "Acme Vendor Solutions" = false ∧
    score_and_deduplicate (fun _ _ => none)
      [{ name := "Acme Vendor Solutions", title := "Clerk", email := some "info@acme.com",
         confidence_score := 1/2 }] "Springfield" "IL" = [] := by
  refine ⟨?_, by decide, rfl⟩
  intro lookup l m s o h
  obtain ⟨g, hg, rfl⟩ := mem_score_dedup lookup l m s o h
  have hv := groupByKey_seed_valid l g hg
  unfold validOfficial at hv
  rw [Bool.and_eq_true] at hv
  obtain ⟨hv1, hv2⟩ := hv
  obtain ⟨mid, hname, htitle, heq⟩ := processGroup_spec lookup m s g.2.1 g.2.2
  rw [heq]
  constructor
  · show validate_official_name ((calculate_confidence_score mid).2).name = true
    rw [calc_snd_name, hname]
    exact hv1
  · show validate_official_title ((calculate_confidence_score mid).2).title = true
    rw [calc_snd_title, htitle]
    exact hv2

/-- Concrete record for the C6 witness. -/
def c6_rec : Official := { name := "Raul Gomez", title := "Mayor", confidence_score := 1/2 }

/-- Witness for C6: the theorem applied to a singleton pipeline run. -/
theorem pipeline_output_name_title_validated_witness :
    validate_official_name (processGroup (fun _ _ => none) "" "" c6_rec []).name = true ∧
    validate_official_title (processGroup (fun _ _ => none) "" "" c6_rec []).title = true :=
  pipeline_output_name_title_validated.1 (fun _ _ => none) [c6_rec] "" "" _
    (by
      have h0 : score_and_deduplicate (fun _ _ => none) [c6_rec] "" "" =
          [processGroup (fun _ _ => none) "" "" c6_rec []] := rfl
      rw [h0]
      exact List.mem_singleton_self _)

theorem mem_filter_officials (l : List Official) (t : ℚ) (o : Official)
    (h : o ∈ filter_officials l t) :
    ∃ x : Official,
      o = { (calculate_confidence_score x).2 with
            confidence_score := (calculate_confidence_score x).1 } ∧
      t ≤ (calculate_confidence_score x).1 := by
  have haux : ∀ (ll : List Official) (acc : List Official),
      o ∈ ll.foldl (fun acc official =>
        if t ≤ (calculate_confidence_score official).1 then
          acc ++ [{ (calculate_confidence_score official).2 with
            confidence_score := (calculate_confidence_score official).1 }]
        else acc) acc →
      o ∈ acc ∨ ∃ x : Official,
        o = { (calculate_confidence_score x).2 with
              confidence_score := (calculate_confidence_score x).1 } ∧
        t ≤ (calculate_confidence_score x).1 := by
    intro ll
    induction ll with
    | nil => intro acc h'; exact Or.inl h'
    | cons x ll ih =>
      intro acc h'
      rw [List.foldl_cons] at h'
      rcases ih _ h' with h'' | h''
      · by_cases hc : t ≤ (calculate_confidence_score x).1
        · rw [if_pos hc] at h''
          rcases List.mem_append.mp h'' with h3 | h3
          · exact Or.inl h3
          · exact Or.inr ⟨x, List.mem_singleton.mp h3, hc⟩
        · rw [if_neg hc] at h''
          exact Or.inl h''
      · exact Or.inr h''
  rcases haux l [] h with h' | h'
  · simp at h'
  · exact h'

/-- C4: every record in the output of `score_and_deduplicate` carries a
recomputed confidence that is at least the default threshold `0.6` (the name
and title signals alone already contribute `0.6`), and `filter_officials`
keeps only records whose recomputed confidence reaches the given threshold,
storing that recomputed value. -/
theorem pipeline_and_filter_enforce_min_confidence :
    (∀ (lookup : String → String → Option String) (l : List Official) (m s : String)
        (o : Official), o ∈ score_and_deduplicate lookup l m s →
      6/10 ≤ o.confidence_score ∧
        o.confidence_score = (calculate_confidence_score o).1) ∧
    (∀ (l : List Official) (t : ℚ) (o : Official), o ∈ filter_officials l t →
      t ≤ o.confidence_score ∧ o.confidence_score = (calculate_confidence_score o).1) := by
  constructor
  · intro lookup l m s o h
    obtain ⟨g, hg, rfl⟩ := mem_score_dedup lookup l m s o h
    have hv := groupByKey_seed_valid l g hg
    unfold validOfficial at hv
    rw [Bool.and_eq_true] at hv
    obtain ⟨hv1, hv2⟩ := hv
    obtain ⟨mid, hname, htitle, heq⟩ := processGroup_spec lookup m s g.2.1 g.2.2
    rw [heq]
    constructor
    · show 6/10 ≤ (calculate_confidence_score mid).1
      exact calc_ge_six mid (by rw [hname]; exact hv1) (by rw [htitle]; exact hv2)
    · show (calculate_confidence_score mid).1 =
        (calculate_confidence_score
          { (calculate_confidence_score mid).2 with
            confidence_score := (calculate_confidence_score mid).1 }).1
      exact ((calc_fst_conf ((calculate_confidence_score mid).2)
        ((calculate_confidence_score mid).1)).trans (calc_idem mid)).symm
  · intro l t o h
    obtain ⟨x, rfl, hx⟩ := mem_filter_officials l t o h
    constructor
    · exact hx
    · show (calculate_confidence_score x).1 =
        (calculate_confidence_score
          { (calculate_confidence_score x).2 with
            confidence_score := (calculate_confidence_score x).1 }).1
      exact ((calc_fst_conf ((calculate_confidence_score x).2)
        ((calculate_confidence_score x).1)).trans (calc_idem x)).symm

/-- Concrete record for the C4 witness. -/
def c4_rec : Official := { name := "Ann Lee", title := "Clerk", confidence_score := 1/2 }

/-- Witness for C4: the pipeline part applied to a singleton run. -/
theorem pipeline_and_filter_enforce_min_confidence_witness :
    6/10 ≤ (processGroup (fun _ _ => none) "" "" c4_rec []).confidence_score ∧
    (processGroup (fun _ _ => none) "" "" c4_rec []).confidence_score =
      (calculate_confidence_score (processGroup (fun _ _ => none) "" "" c4_rec [])).1 :=
  pipeline_and_filter_enforce_min_confidence.1 (fun _ _ => none) [c4_rec] "" "" _
    (by
      have h0 : score_and_deduplicate (fun _ _ => none) [c4_rec] "" "" =
          [processGroup (fun _ _ => none) "" "" c4_rec []] := rfl
      rw [h0]
      exact List.mem_singleton_self _)

/-! ## Upstream-confidence independence -/

/-- Erase the incoming `confidence_score` of a record (the only field the
hyperproperty allows to vary). -/
def scrub (o : Official) : Official := { o with confidence_score := 0 }

theorem fillFrom_scrub (a b : Official) : fillFrom (scrub a) (scrub b) = scrub (fillFrom a b) := by
  unfold fillFrom scrub
  by_cases h1 : (!truthy a.email && truthy b.email) = true <;>
    by_cases h2 : (!truthy a.phone && truthy b.phone) = true <;>
      by_cases h3 : (!truthy a.linkedin_url && truthy b.linkedin_url) = true <;>
        simp [h1, h2, h3]

theorem foldl_fill_scrub (rest : List Official) : ∀ seed : Official,
    (rest.map scrub).foldl fillFrom (scrub seed) = scrub (rest.foldl fillFrom seed) := by
  induction rest with
  | nil => intro seed; rfl
  | cons m rest ih =>
    intro seed
    rw [List.map_cons, List.foldl_cons, List.foldl_cons, fillFrom_scrub, ih]

theorem enrichLinkedin_scrub (lookup : String → String → Option String) (m s : String)
    (b : Official) :
    enrichLinkedin lookup m s (scrub b) = scrub (enrichLinkedin lookup m s b) := by
  unfold enrichLinkedin scrub
  by_cases hc : (!truthy b.linkedin_url && !(m == "") && !(s == "")) = true
  · simp only [hc]
    cases hl : lookup b.name b.title <;> simp [hl]
  · simp [hc]

theorem calc_scrub (o : Official) :
    calculate_confidence_score (scrub o) =
      ((calculate_confidence_score o).1, scrub ((calculate_confidence_score o).2)) := by
  rw [calc_eq, calc_eq]
  unfold scrub
  cases hv : validate_phone (o.phone.getD "") <;> simp [hv]

theorem addToGroup_scrub (gs : List MergeGroup) (k : Key) (o : Official) :
    addToGroup (gs.map (fun g => (g.1, scrub g.2.1, g.2.2.map scrub))) k (scrub o) =
      (addToGroup gs k o).map (fun g => (g.1, scrub g.2.1, g.2.2.map scrub)) := by
  induction gs with
  | nil => rfl
  | cons g gs ih =>
    obtain ⟨k₀, s, os⟩ := g
    simp only [List.map_cons, addToGroup]
    by_cases h0 : k₀ = k
    · rw [if_pos h0, if_pos h0]
      simp
    · rw [if_neg h0, if_neg h0, List.map_cons, ih]

theorem groupByKey_scrub (l : List Official) :
    groupByKey (l.map scrub) =
      (groupByKey l).map (fun g => (g.1, scrub g.2.1, g.2.2.map scrub)) := by
  have aux : ∀ (ll : List Official) (gs : List MergeGroup),
      (ll.map scrub).foldl
        (fun gs o => if validOfficial o then addToGroup gs (officialKey o) o else gs)
        (gs.map (fun g => (g.1, scrub g.2.1, g.2.2.map scrub))) =
      (ll.foldl (fun gs o => if validOfficial o then addToGroup gs (officialKey o) o else gs)
        gs).map (fun g => (g.1, scrub g.2.1, g.2.2.map scrub)) := by
    intro ll
    induction ll with
    | nil => intro gs; rfl
    | cons o ll ih =>
      intro gs
      rw [List.map_cons, List.foldl_cons, List.foldl_cons]
      have hval : validOfficial (scrub o) = validOfficial o := rfl
      have hkey : officialKey (scrub o) = officialKey o := rfl
      by_cases hv : validOfficial o = true
      · rw [if_pos (hval.trans hv), if_pos hv, hkey, addToGroup_scrub, ih]
      · rw [if_neg (fun hcon => hv ((hval.symm.trans hcon))), if_neg hv, ih]
  exact aux l []

theorem processGroup_scrub (lookup : String → String → Option String) (m s : String)
    (seed : Official) (rest : List Official) :
    processGroup lookup m s (scrub seed) (rest.map scrub) = processGroup lookup m s seed rest := by
  rw [processGroup_eq, processGroup_eq, foldl_fill_scrub, enrichLinkedin_scrub, calc_scrub]
  rfl

/-- C9 (amended): in the current pipeline the output of
`score_and_deduplicate` depends only on the records' field contents — two
input lists that agree after erasing the incoming `confidence_score` produce
identical outputs (confidence included). -/
theorem confidence_recomputed_ignores_upstream (lookup : String → String → Option String)
    (m s : String) (l₁ l₂ : List Official)
    (h : List.Forall₂ (fun a b => scrub a = scrub b) l₁ l₂) :
    score_and_deduplicate lookup l₁ m s = score_and_deduplicate lookup l₂ m s := by
  have hmap : l₁.map scrub = l₂.map scrub := by
    induction h with
    | nil => rfl
    | cons h₁ _ ih => simp only [List.map_cons, h₁, ih]
  have key : ∀ l : List Official,
      score_and_deduplicate lookup (l.map scrub) m s = score_and_deduplicate lookup l m s := by
    intro l
    cases l with
    | nil => rfl
    | cons x xs =>
      have hcomp : ((fun g => processGroup lookup m s g.2.1 g.2.2) ∘
          (fun g : MergeGroup => (g.1, scrub g.2.1, g.2.2.map scrub))) =
          fun g : MergeGroup => processGroup lookup m s g.2.1 g.2.2 := by
        funext g
        exact processGroup_scrub lookup m s g.2.1 g.2.2
      unfold score_and_deduplicate
      rw [if_neg (by simp), if_neg (by simp)]
      dsimp only
      congr 1
      rw [groupByKey_scrub, List.map_map, hcomp]
  rw [← key l₁, hmap, key l₂]

/-- Records for the C9 witness: identical except for the incoming score. -/
def c9_recA : Official := { name := "Omar Diaz", title := "Clerk", confidence_score := 1/2 }

/-- Same record as `c9_recA` with a different incoming score. -/
def c9_recB : Official := { name := "Omar Diaz", title := "Clerk", confidence_score := 9/10 }

/-- Witness for C9: two runs differing only in incoming scores coincide. -/
theorem confidence_recomputed_ignores_upstream_witness :
    score_and_deduplicate (fun _ _ => none) [c9_recA] "" "" =
      score_and_deduplicate (fun _ _ => none) [c9_recB] "" "" :=
  confidence_recomputed_ignores_upstream (fun _ _ => none) "" "" [c9_recA] [c9_recB]
    (List.Forall₂.cons rfl List.Forall₂.nil)

/-- Record fed to the legacy pipeline with incoming score `0.5`. -/
def c9_legacyA : Official :=
  { name := "Jane Doe", title := "Clerk", linkedin_url := some "https://x",
    source := some "Sample data", confidence_score := 1/2 }

/-- Same record with incoming score `0.3`. -/
def c9_legacyB : Official :=
  { name := "Jane Doe", title := "Clerk", linkedin_url := some "https://x",
    source := some "Sample data", confidence_score := 3/10 }

/-- Counterexample to C9 as stated: the legacy `score_and_deduplicate` of
`civileads/scraper.py` (named in the claim's sources) seeds its score from the
incoming `confidence_score`, so two runs whose inputs differ only in that
field produce different output confidences (`0.6` vs `0.4`). -/
theorem legacy_score_depends_on_upstream_confidence :
    scrub c9_legacyA = scrub c9_legacyB ∧
    c9_legacyA.confidence_score ≠ c9_legacyB.confidence_score ∧
    ((legacy_score_and_deduplicate (fun _ _ => none) [c9_legacyA] "" "").map
        (·.confidence_score)) = [3/5] ∧
    ((legacy_score_and_deduplicate (fun _ _ => none) [c9_legacyB] "" "").map
        (·.confidence_score)) = [2/5] ∧
    (3/5 : ℚ) ≠ 2/5 := by
  refine ⟨rfl, by norm_num [c9_legacyA, c9_legacyB], ?_, ?_, by norm_num⟩
  · have h1 : (legacy_score_and_deduplicate (fun _ _ => none) [c9_legacyA] "" "").map
        (·.confidence_score) =
        [min 1 ((1 : ℚ)/2 + 0 + 0 + 1/10)] := rfl
    rw [h1]
    norm_num
  · have h1 : (legacy_score_and_deduplicate (fun _ _ => none) [c9_legacyB] "" "").map
        (·.confidence_score) =
        [min 1 ((3 : ℚ)/10 + 0 + 0 + 1/10)] := rfl
    rw [h1]
    norm_num

/-! ## Site discovery claims -/

/-- The acceptance test of the main discovery loop: the URL answered with
status 200 and the body passes the site-likelihood classifier. -/
def reachesAndMunicipal (fetch : Fetch) (m s : String) (url : String) : Bool :=
  match fetch url with
  | some (status, body) => status == 200 && is_likely_municipal_site body m s
  | none => false

/-- The acceptance test of the Des Moines fallback loop: status 200 alone. -/
def reaches200 (fetch : Fetch) (url : String) : Bool :=
  match fetch url with
  | some (status, _) => status == 200
  | none => false

theorem probeLoop_fst (fetch : Fetch) (m s : String) : ∀ urls : List String,
    (probeLoop fetch m s urls).1 = urls.find? (reachesAndMunicipal fetch m s) := by
  intro urls
  induction urls with
  | nil => rfl
  | cons url rest ih =>
    simp only [probeLoop]
    cases hf : fetch url with
    | none =>
      rw [List.find?_cons_of_neg _ (by simp [reachesAndMunicipal, hf])]
      exact ih
    | some p =>
      obtain ⟨status, body⟩ := p
      dsimp only
      by_cases hc : (status == 200 && is_likely_municipal_site body m s) = true
      · rw [if_pos hc, List.find?_cons_of_pos _ (by simp only [reachesAndMunicipal, hf]; exact hc)]
      · rw [if_neg hc, List.find?_cons_of_neg _ (by simp only [reachesAndMunicipal, hf]; exact hc)]
        exact ih

theorem probe200_fst (fetch : Fetch) : ∀ urls : List String,
    (probe200 fetch urls).1 = urls.find? (reaches200 fetch) := by
  intro urls
  induction urls with
  | nil => rfl
  | cons url rest ih =>
    simp only [probe200]
    cases hf : fetch url with
    | none =>
      rw [List.find?_cons_of_neg _ (by simp [reaches200, hf])]
      exact ih
    | some p =>
      obtain ⟨status, body⟩ := p
      dsimp only
      by_cases hc : (status == 200) = true
      · rw [if_pos hc, List.find?_cons_of_pos _ (by simp only [reaches200, hf]; exact hc)]
      · rw [if_neg hc, List.find?_cons_of_neg _ (by simp only [reaches200, hf]; exact hc)]
        exact ih

/-- C5 (amended): discovery probes the generated candidates in order and
returns the first whose response is reachable and passes the classifier; when
no candidate passes, it returns no result — except for Des Moines, IA, where
a hardcoded list of four URLs is then probed and the first one reachable is
returned with no classifier check.  The classifier accepts exactly when
(name present ∧ region code present) ∨ (name present ∧ ≥1 indicator) ∨
(≥2 indicators). -/
theorem discovery_first_classified_with_des_moines_fallback (fetch : Fetch) (m s : String) :
    (∀ u : String,
      (generate_url_patterns m s).find? (reachesAndMunicipal fetch m s) = some u →
      (find_municipal_website fetch m s).1 = some u) ∧
    ((generate_url_patterns m s).find? (reachesAndMunicipal fetch m s) = none →
      ¬(toLowerS m = "des moines" ∧ toLowerS s = "ia") →
      (find_municipal_website fetch m s).1 = none) ∧
    ((generate_url_patterns m s).find? (reachesAndMunicipal fetch m s) = none →
      toLowerS m = "des moines" → toLowerS s = "ia" →
      (find_municipal_website fetch m s).1 = des_moines_direct_urls.find? (reaches200 fetch)) ∧
    (∀ html : String, is_likely_municipal_site html m s =
      ((name_found (toLowerS html) (toLowerS m) && state_found (toLowerS html) s) ||
        (name_found (toLowerS html) (toLowerS m) &&
          decide (1 ≤ indicator_count (toLowerS html) (toLowerS m))) ||
        decide (2 ≤ indicator_count (toLowerS html) (toLowerS m)))) := by
  refine ⟨?_, ?_, ?_, ?_⟩
  · intro u hu
    simp only [find_municipal_website]
    rw [probeLoop_fst, hu]
  · intro h0 hnot
    simp only [find_municipal_website]
    rw [probeLoop_fst, h0]
    have hb : (toLowerS m == "des moines" && toLowerS s == "ia") = false := by
      by_cases h1 : toLowerS m = "des moines" <;> by_cases h2 : toLowerS s = "ia"
      · exact absurd ⟨h1, h2⟩ hnot
      · simp [h1, h2]
      · simp [h1, h2]
      · simp [h1, h2]
    rw [hb]
    rfl
  · intro h0 h1 h2
    simp only [find_municipal_website]
    rw [probeLoop_fst, h0]
    have hb : (toLowerS m == "des moines" && toLowerS s == "ia") = true := by simp [h1, h2]
    rw [hb]
    simp only [if_true]
    rw [probe200_fst]
  · intro html
    simp only [is_likely_municipal_site]
    by_cases h1 :
        (name_found (toLowerS html) (toLowerS m) && state_found (toLowerS html) s) = true <;>
      by_cases h2 : (name_found (toLowerS html) (toLowerS m) &&
          decide (1 ≤ indicator_count (toLowerS html) (toLowerS m))) = true <;>
        by_cases h3 : decide (2 ≤ indicator_count (toLowerS html) (toLowerS m)) = true <;>
          simp [h1, h2, h3]

/-- Fetch oracle for the C5 witness: only the first generated pattern URL for
Plainville, KS answers, with a clearly municipal body. -/
def c5_fetch : Fetch := fun u =>
  if u == "https://www.pla.gov" then some (200, "plainville ks city hall") else none

/-- Witness for C5: the first classified candidate is returned. -/
theorem discovery_first_classified_witness :
    (generate_url_patterns "Plainville" "KS").find?
        (reachesAndMunicipal c5_fetch "Plainville" "KS") = some "https://www.pla.gov" ∧
    (find_municipal_website c5_fetch "Plainville" "KS").1 = some "https://www.pla.gov" :=
  ⟨by decide,
   (discovery_first_classified_with_des_moines_fallback c5_fetch "Plainville" "KS").1
     "https://www.pla.gov" (by decide)⟩

/-- Fetch oracle for the C5 counterexample: every generated pattern URL is
unreachable, and the hardcoded fallback URL answers with a body that fails
the classifier. -/
def c5_fetch_ce : Fetch := fun u =>
  if u == "https://www.dsm.city" then some (200, "hello") else none

/-- Counterexample to C5 as stated: for Des Moines, IA no probed candidate
satisfies the classifier, the confirmed page's body itself fails the
classifier, and discovery still returns a URL (the hardcoded fallback). -/
theorem discovery_des_moines_fallback_bypasses_classifier :
    (generate_url_patterns "Des Moines" "IA").find?
        (reachesAndMunicipal c5_fetch_ce "Des Moines" "IA") = none ∧
    is_likely_municipal_site "hello" "Des Moines" "IA" = false ∧
    (find_municipal_website c5_fetch_ce "Des Moines" "IA").1 = some "https://www.dsm.city" := by
  decide

/-! ## Entry-point claims -/

/-- C7 (amended): the public entry point performs no validation of its
inputs — for every environment and every municipality/state pair, including
empty strings, the first URL it fetches is the Google search URL built from
the raw inputs, before any input check could intervene. -/
theorem entry_point_fetches_before_any_validation (env : Env) (m s : String) :
    ((search_for_officials env m s).2).head? =
      some (google_search_url (m ++ " " ++ s ++ " mayor council contact")) := by
  have hg : (search_google env (m ++ " " ++ s ++ " mayor council contact")).2 =
      [google_search_url (m ++ " " ++ s ++ " mayor council contact")] := by
    unfold search_google
    dsimp only
    cases hf : env.fetch (google_search_url (m ++ " " ++ s ++ " mayor council contact")) with
    | none => rfl
    | some p =>
      obtain ⟨st, body⟩ := p
      by_cases h2 : (st == 200) = true <;> simp [h2]
  unfold search_for_officials
  dsimp only
  rw [hg]
  rfl

/-- Trivial collaborator environment (no host answers, parsers find nothing). -/
def c7_env : Env where
  fetch := fun _ => none
  parseGoogleOfficials := fun _ => []
  anchorsOf := fun _ => []
  pageTextOf := fun s => s
  sectionTextsOf := fun _ => []
  extractOfficials := fun _ => []
  linkedinLookup := fun _ _ => none

/-- Counterexample to C7 as stated: called with empty municipality name and
empty region code, the entry point still fetches (starting with the Google
search URL) and returns an ordinary empty result instead of signalling an
invalid argument. -/
theorem entry_point_empty_input_still_fetches :
    (search_for_officials c7_env "" "").2 ≠ [] ∧
    ((search_for_officials c7_env "" "").2).head? =
      some "https://www.google.com/search?q=++mayor+council+contact" ∧
    (search_for_officials c7_env "" "").1 = [] := by
  decide
